import Mathlib

/-!
# VaporPlayer — shallow embedding and verification

A shallow embedding of the VaporPlayer music player:
the playback sequencer, the client playback state transitions
(`removeTrack`, `clearAll`, `setCurrentTime`), the tag reader `readTags`,
and the server library indexer (`server.mjs`).

JavaScript numbers used as catalog indices are embedded as `Int`
(JS `tracks.length - 1` can be `-1`), times and volumes as `Rat`.
-/

namespace VaporPlayer

/-- The three repeat modes of the player (`"off" | "one" | "all"`). -/
inductive RepeatMode where
  | off
  | one
  | all
deriving DecidableEq

/-- The rejection-sampling loop `do { r = Math.floor(Math.random()*len) } while (r === index)`,
embedded over an explicit finite prefix `draws` of the random stream: the result is the first
draw different from `current`; `none` means every provided draw collided (the loop is still
running). -/
def rejectionDraw : List Int → Int → Option Int
  | [], _ => none
  | d :: ds, current => if d = current then rejectionDraw ds current else some d

/-- `nextIndex` from `src/App.jsx` lines 90–101 (identical in
`modern_react_music_player_drag_drop_local_files.jsx` lines 75–86):
repeat-one returns the index unchanged; shuffle with more than one track
rejection-samples a different index; otherwise advance by one, wrapping to `0`
only under repeat-all. -/
def nextIndex (repeatMode : RepeatMode) (shuffle : Bool) (count : Nat)
    (index : Int) (draws : List Int) : Option Int :=
  if repeatMode = RepeatMode.one then some index
  else if shuffle = true ∧ 1 < count then rejectionDraw draws index
  else if index + 1 < (count : Int) then some (index + 1)
  else if repeatMode = RepeatMode.all then some 0
  else some index

/-- `prevIndex` from `src/App.jsx` lines 103–112 (identical in
`modern_react_music_player_drag_drop_local_files.jsx` lines 88–97):
shuffle with more than one track rejection-samples a different index; otherwise
`index > 0 ? index - 1 : (repeatMode === "all" ? tracks.length - 1 : 0)`.
Note there is no repeat-one case here. -/
def prevIndex (repeatMode : RepeatMode) (shuffle : Bool) (count : Nat)
    (index : Int) (draws : List Int) : Option Int :=
  if shuffle = true ∧ 1 < count then rejectionDraw draws index
  else if 0 < index then some (index - 1)
  else if repeatMode = RepeatMode.all then some ((count : Int) - 1)
  else some 0

/-! ## Client data model and state transitions -/

/-- A catalog track. Only the stable `id` and the display `name` take part in the
verified state transitions; the remaining payload of a track record
(`src`, `size`, `type`, `meta`, `quality`) never influences them and is omitted. -/
structure Track where
  id : String
  name : String
deriving DecidableEq

/-- The library sidebar structure of `src/App.jsx`: artist → album → tracks,
embedded as nested association lists. -/
def Library : Type := List (String × List (String × List Track))

/-- The empty library object `{}`. -/
def Library.empty : Library := ([] : List (String × List (String × List Track)))

/-- The `useState` fields of `MusicPlayerApp` in `src/App.jsx`. -/
structure AppState where
  tracks : List Track
  library : Library
  index : Int
  playing : Bool
  shuffle : Bool
  repeatMode : RepeatMode
  volume : Rat
  muted : Bool
  progress : Rat
  duration : Rat
  bgColor : String

/-- The `useState` fields of `MusicPlayerApp` in
`modern_react_music_player_drag_drop_local_files.jsx` (no library sidebar,
extra `seeking` flag). -/
structure LocalPlayerState where
  tracks : List Track
  index : Int
  playing : Bool
  shuffle : Bool
  repeatMode : RepeatMode
  volume : Rat
  muted : Bool
  seeking : Bool
  progress : Rat
  duration : Rat

/-- `removeTrack` from `src/App.jsx` lines 262–264: only
`setTracks(prev => prev.filter(t => t.id !== id))`; neither `index` nor
`playing` is touched. -/
def removeTrack (st : AppState) (id : String) : AppState :=
  { st with tracks := st.tracks.filter (fun t => t.id != id) }

/-- JS `Array.prototype.findIndex` on the track list: the index of the first
track with the given id, `-1` when absent. -/
def findIndexJS (l : List Track) (id : String) : Int :=
  match l.findIdx? (fun t => t.id == id) with
  | some n => (n : Int)
  | none => -1

/-- `removeTrack` from `modern_react_music_player_drag_drop_local_files.jsx`
lines 217–231: removing the current track moves the index to
`Math.max(0, Math.min(idx, next.length - 1))` and stops playback; removing an
earlier track decrements the index; otherwise only the list changes. -/
def removeTrackLocal (st : LocalPlayerState) (id : String) : LocalPlayerState :=
  let idx := findIndexJS st.tracks id
  let next := st.tracks.filter (fun t => t.id != id)
  if idx = st.index then
    { st with tracks := next
              index := max 0 (min idx ((next.length : Int) - 1))
              playing := false }
  else if idx < st.index then
    { st with tracks := next, index := max 0 (st.index - 1) }
  else
    { st with tracks := next }

/-- `clearAll` from `src/App.jsx` lines 266–273: resets tracks, library, index,
playing, progress and duration; touches nothing else. -/
def clearAll (st : AppState) : AppState :=
  { st with tracks := []
            library := Library.empty
            index := 0
            playing := false
            progress := 0
            duration := 0 }

/-- `clearAll` from `modern_react_music_player_drag_drop_local_files.jsx`
lines 233–239. -/
def clearAllLocal (st : LocalPlayerState) : LocalPlayerState :=
  { st with tracks := []
            index := 0
            playing := false
            progress := 0
            duration := 0 }

/-- `setCurrentTime(val)` from `src/App.jsx` lines 275–280 (identical in
`modern_react_music_player_drag_drop_local_files.jsx` lines 241–245): after the
`if (!audio) return` guard it runs `audio.currentTime = val; setProgress(val)`
— the stored progress becomes `val` with no clamping, and no other field
changes. -/
def setCurrentTime (st : AppState) (val : Rat) : AppState :=
  { st with progress := val }

/-! ## Tag reading (`readTags`) -/

/-- The part of a browser `File` object that `readTags` reads. -/
structure File where
  name : String
deriving DecidableEq

/-- A `tags.picture` value as delivered by jsmediatags: optional byte data and
optional MIME format string. -/
structure TagPicture where
  data : Option (List Nat)
  format : Option String
deriving DecidableEq

/-- The tag record delivered to `onSuccess`. `none` models an absent (JS
`undefined`) field. -/
structure JsTags where
  title : Option String
  artist : Option String
  album : Option String
  picture : Option TagPicture
deriving DecidableEq

/-- How one call to `jsmediatags.read` resolves: the success callback with tags,
the error callback, or a synchronous exception caught by the `try`. -/
inductive TagReadOutcome where
  | success (tags : JsTags)
  | onError
  | thrown
deriving DecidableEq

/-- The metadata record `readTags` resolves with. An object URL for the cover
art is modelled by the blob content it references: the picture bytes and MIME
type; `none` is the JS `null`. -/
structure Meta where
  title : String
  artist : String
  album : String
  pictureUrl : Option (List Nat × String)
deriving DecidableEq

/-- JS `x || y` for an optional string `x`: the default is used when `x` is
`undefined` or the empty string (both falsy). -/
def jsOrString : Option String → String → String
  | none, d => d
  | some s, d => if s = "" then d else s

/-- JS truthiness of `tags.picture && tags.picture.data && tags.picture.format`:
the picture object and its data array are truthy whenever present; the format
string must also be nonempty. -/
def pictureTruthy : Option TagPicture → Bool
  | none => false
  | some pic =>
    match pic.data, pic.format with
    | some _, some format => format != ""
    | _, _ => false

/-- `readTags` from `src/App.jsx` lines 33–63 (identical in
`modern_react_music_player_drag_drop_local_files.jsx` lines 28–52), total over
the outcome of the tag read — the promise always resolves, never rejects.
`onSuccess` defaults falsy fields (`tags.title || file.name`,
`tags.artist || "Unknown Artist"`, `tags.album || ""`) and builds an object URL
from the picture when it is truthy; both failure paths resolve
`{title: file.name, artist: "", album: "", pictureUrl: null}`. -/
def readTags (file : File) (outcome : TagReadOutcome) : Meta :=
  match outcome with
  | TagReadOutcome.success tags =>
    let pictureUrl : Option (List Nat × String) :=
      if pictureTruthy tags.picture then
        match tags.picture with
        | some pic =>
          match pic.data, pic.format with
          | some data, some format => some (data, format)
          | _, _ => none
        | none => none
      else none
    { title := jsOrString tags.title file.name
      artist := jsOrString tags.artist "Unknown Artist"
      album := jsOrString tags.album ""
      pictureUrl := pictureUrl }
  | TagReadOutcome.onError =>
    { title := file.name, artist := "", album := "", pictureUrl := none }
  | TagReadOutcome.thrown =>
    { title := file.name, artist := "", album := "", pictureUrl := none }

/-! ## Server (`server.mjs`) -/

/-- A track record built by `indexLibrary` in `server.mjs` lines 24–29:
`{id: uuidv4(), name: f, path: fullPath, relPath: path.relative(baseDir, fullPath)}`. -/
structure ServerTrack where
  id : String
  name : String
  path : String
  relPath : String
deriving DecidableEq

/-- The JSON object `res.json` serializes for one server track: its field
names in declaration order with their string values. -/
def serverTrackJson (t : ServerTrack) : List (String × String) :=
  [("id", t.id), ("name", t.name), ("path", t.path), ("relPath", t.relPath)]

/-- The body of `GET /api/library` (`server.mjs` lines 41–43): the JSON array
serializing the in-memory `tracks` list. -/
def apiLibraryResponse (tracks : List ServerTrack) : List (List (String × String)) :=
  tracks.map serverTrackJson

/-- A directory tree as walked by `indexLibrary`: `fs.readdirSync` entries are
either plain files or subdirectories. -/
inductive FsEntry where
  | file (name : String)
  | dir (name : String) (entries : List FsEntry)

/-- The file extensions of the filter regex `/\\.(mp3|flac|wav|aac|ogg)$/i`,
as character lists. -/
def audioExtensions : List (List Char) :=
  [String.data "mp3", String.data "flac", String.data "wav",
   String.data "aac", String.data "ogg"]

/-- Whether a character is matched by the regex metacharacter `.` in a
JS regex without the `s` flag: anything but a line terminator. -/
def jsDotMatches (c : Char) : Bool :=
  c != Char.ofNat 10 && c != Char.ofNat 13 &&
  c != Char.ofNat 0x2028 && c != Char.ofNat 0x2029

/-- `f.match(/\\.(mp3|flac|wav|aac|ogg)$/i)` from `server.mjs` line 22. In a JS
regex literal `\\` is one literal backslash and the following unescaped `.` is
the any-character metacharacter, so the pattern matches exactly the strings
ending in a literal backslash, then any non-line-terminator character, then one
of the five extensions (the `i` flag's case folding is modelled with
`Char.toLower`). -/
def matchesAudioRegex (name : String) : Bool :=
  audioExtensions.any fun ext =>
    let cs := name.data
    let n := cs.length
    let k := ext.length
    decide (k + 2 ≤ n) &&
    (cs[n - k - 2]? == some (Char.ofNat 92)) &&
    (match cs[n - k - 1]? with
     | some c => jsDotMatches c
     | none => false) &&
    ((cs.drop (n - k)).map Char.toLower == ext)

/-- The recursive `walk` of `indexLibrary` (`server.mjs` lines 16–33) over a
list of directory entries, collecting the names of the files the regex accepts,
in traversal order. The `uuid`/`path`/`relPath` payload of each pushed record
does not affect which files are pushed and is elided here. -/
def walkTracks : List FsEntry → List String
  | [] => []
  | FsEntry.file f :: rest =>
    (if matchesAudioRegex f then [f] else []) ++ walkTracks rest
  | FsEntry.dir _ cs :: rest => walkTracks cs ++ walkTracks rest

/-- All file names occurring anywhere in a directory tree, in traversal
order. -/
def allFileNames : List FsEntry → List String
  | [] => []
  | FsEntry.file f :: rest => f :: allFileNames rest
  | FsEntry.dir _ cs :: rest => allFileNames cs ++ allFileNames rest

/-! ## Theorems -/

/-- A draw accepted by the rejection loop is one of the provided draws and
differs from `current`. -/
theorem rejectionDraw_eq_some {draws : List Int} {current r : Int}
    (h : rejectionDraw draws current = some r) : r ∈ draws ∧ r ≠ current := by
  induction draws with
  | nil => simp [rejectionDraw] at h
  | cons d ds ih =>
    by_cases hd : d = current
    · simp only [rejectionDraw, if_pos hd] at h
      rcases ih h with ⟨hmem, hne⟩
      exact ⟨List.mem_cons_of_mem _ hmem, hne⟩
    · simp only [rejectionDraw, if_neg hd] at h
      cases h
      exact ⟨List.mem_cons_self _ _, hd⟩

/-- C1 counterexample: with `repeatMode == one`, `count == 2`, `current == 1`,
`shuffle == false`, `prevIndex` returns `0`, not the input index `1` — the
repeat-one early return exists only in `nextIndex`. -/
theorem prevIndex_repeat_one_counterexample :
    prevIndex RepeatMode.one false 2 1 [] ≠ some 1 := by decide

/-- C1 (amended): for every catalog with `count > 0` and `repeatMode == one`,
`nextIndex` returns the input index unchanged for any shuffle flag and any
draws, while `prevIndex` ignores the repeat-one mode: without shuffle it
returns `current - 1` when `current > 0` and `0` otherwise. -/
theorem repeat_one_indices (count : Nat) (index : Int) (sh : Bool)
    (draws : List Int) (hc : 0 < count) :
    nextIndex RepeatMode.one sh count index draws = some index ∧
    prevIndex RepeatMode.one false count index draws =
      some (if 0 < index then index - 1 else 0) := by
  refine ⟨by simp [nextIndex], ?_⟩
  by_cases hi : 0 < index
  · rw [prevIndex, if_neg (by simp), if_pos hi, if_pos hi]
  · rw [prevIndex, if_neg (by simp), if_neg hi, if_neg (by decide), if_neg hi]

/-- C1 witness: the amended statement at `count = 2`, `current = 1`,
shuffle on for `nextIndex`. -/
theorem repeat_one_indices_witness :
    nextIndex RepeatMode.one true 2 1 [] = some 1 ∧
    prevIndex RepeatMode.one false 2 1 [] = some 0 := by
  have h := repeat_one_indices 2 1 true [] (by norm_num)
  simpa using h

/-- C5: for `count > 1` with shuffle on (and `repeatMode ≠ one` for
`nextIndex`), whenever the rejection loop returns, the returned index lies in
`[0, count)` and differs from the input index, for every outcome of the random
draws (each draw being some `Math.floor(Math.random()*count) ∈ [0, count)`). -/
theorem shuffle_result_in_range (count : Nat) (index r : Int) (rm : RepeatMode)
    (draws : List Int) (hc : 1 < count)
    (hd : ∀ d ∈ draws, 0 ≤ d ∧ d < (count : Int)) :
    (rm ≠ RepeatMode.one → nextIndex rm true count index draws = some r →
      0 ≤ r ∧ r < (count : Int) ∧ r ≠ index) ∧
    (prevIndex rm true count index draws = some r →
      0 ≤ r ∧ r < (count : Int) ∧ r ≠ index) := by
  constructor
  · intro hrm h
    rw [nextIndex, if_neg hrm, if_pos ⟨rfl, hc⟩] at h
    rcases rejectionDraw_eq_some h with ⟨hmem, hne⟩
    exact ⟨(hd r hmem).1, (hd r hmem).2, hne⟩
  · intro h
    rw [prevIndex, if_pos ⟨rfl, hc⟩] at h
    rcases rejectionDraw_eq_some h with ⟨hmem, hne⟩
    exact ⟨(hd r hmem).1, (hd r hmem).2, hne⟩

/-- C5 witness: `count = 2`, `current = 0`, draws `[1]`, `repeatMode = off`. -/
theorem shuffle_result_in_range_witness :
    0 ≤ (1 : Int) ∧ (1 : Int) < ((2 : Nat) : Int) ∧ (1 : Int) ≠ 0 := by
  have h := shuffle_result_in_range 2 0 1 RepeatMode.off [1]
    (by norm_num) (by intro d hd; simp at hd; simp [hd])
  exact h.1 (by decide) (by decide)

/-- C6: at the last track (`current == count - 1`) without shuffle,
`nextIndex` returns `0` under `repeatMode == all` and the input index
unchanged under `repeatMode == off` — no wraparound at end of queue. -/
theorem nextIndex_at_last (count : Nat) (draws : List Int) (hc : 0 < count) :
    nextIndex RepeatMode.all false count ((count : Int) - 1) draws = some 0 ∧
    nextIndex RepeatMode.off false count ((count : Int) - 1) draws =
      some ((count : Int) - 1) := by
  constructor
  · rw [nextIndex, if_neg (by decide), if_neg (by simp), if_neg (by omega),
      if_pos rfl]
  · rw [nextIndex, if_neg (by decide), if_neg (by simp), if_neg (by omega),
      if_neg (by decide)]

/-- C6 witness: `count = 3`, `current = 2`. -/
theorem nextIndex_at_last_witness :
    nextIndex RepeatMode.all false 3 2 [] = some 0 ∧
    nextIndex RepeatMode.off false 3 2 [] = some 2 := by
  have h := nextIndex_at_last 3 [] (by norm_num)
  norm_num at h
  exact h

/-- C9 counterexample: on the empty catalog with `repeatMode == all`,
`prevIndex` returns `tracks.length - 1 = -1`, not the index `0` unchanged. -/
theorem prevIndex_empty_counterexample :
    prevIndex RepeatMode.all false 0 0 [] ≠ some 0 := by decide

/-- C9 (amended): on the empty catalog (`count == 0`, index `0` as in the
initial state) `nextIndex` and `prevIndex` are total, never enter the
random-draw loop (the draws are irrelevant), and return the index `0`
unchanged — except that `prevIndex` under `repeatMode == all` returns
`count - 1 = -1`. -/
theorem empty_catalog_indices (rm : RepeatMode) (sh : Bool) (draws : List Int) :
    nextIndex rm sh 0 0 draws = some 0 ∧
    prevIndex rm sh 0 0 draws =
      some (if rm = RepeatMode.all then -1 else 0) := by
  cases rm <;> simp [nextIndex, prevIndex]

/-- A name containing no literal backslash is rejected by the filter regex:
every successful match needs a backslash two characters before the
extension. -/
theorem matchesAudioRegex_eq_false_of_no_backslash (name : String)
    (h : Char.ofNat 92 ∉ name.data) : matchesAudioRegex name = false := by
  rw [matchesAudioRegex]
  rw [List.any_eq_false]
  intro ext hext
  intro hp
  simp only [Bool.and_eq_true, decide_eq_true_eq, beq_iff_eq] at hp
  have hsome := hp.1.1.2
  rcases List.getElem?_eq_some.mp hsome with ⟨hlt, hget⟩
  exact h (hget ▸ List.getElem_mem hlt)

/-- C2: indexing a directory tree whose file names all lack a literal
backslash — every ordinary name such as `"song.mp3"` — pushes no track:
the walk of `indexLibrary` returns the empty list. -/
theorem indexLibrary_empty_on_ordinary_names (es : List FsEntry)
    (h : ∀ n ∈ allFileNames es, Char.ofNat 92 ∉ n.data) :
    walkTracks es = [] := by
  induction es using walkTracks.induct with
  | case1 => simp [walkTracks]
  | case2 f rest ih =>
    have hf : matchesAudioRegex f = false :=
      matchesAudioRegex_eq_false_of_no_backslash f (h f (by simp [allFileNames]))
    rw [walkTracks, hf]
    simpa using ih fun n hn => h n (by simp [allFileNames, hn])
  | case3 nm cs rest ihcs ihrest =>
    rw [walkTracks,
      ihcs fun n hn => h n (by simp [allFileNames, hn]),
      ihrest fun n hn => h n (by simp [allFileNames, hn])]
    rfl

/-- C2 witness: a small library of ordinarily named audio files indexes to an
empty track list. -/
theorem indexLibrary_empty_witness :
    walkTracks [FsEntry.file "cool song.mp3",
      FsEntry.dir "album" [FsEntry.file "b.flac", FsEntry.file "notes.txt"]] = [] := by
  apply indexLibrary_empty_on_ordinary_names
  intro n hn
  simp only [allFileNames, List.mem_cons, List.mem_append,
    List.not_mem_nil, or_false, false_or] at hn
  rcases hn with rfl | rfl | rfl <;> decide

/-- C3 counterexample: seeking to `20` with known duration `10` stores
position `20 > 10` — `setCurrentTime` performs no clamping. -/
theorem setCurrentTime_no_clamp_counterexample :
    ¬ (setCurrentTime
        ⟨[], Library.empty, 0, true, false, RepeatMode.off, 9/10, false, 0, 10,
          "#0a0f29"⟩ 20).progress ≤
      (setCurrentTime
        ⟨[], Library.empty, 0, true, false, RepeatMode.off, 9/10, false, 0, 10,
          "#0a0f29"⟩ 20).duration := by decide

/-- C3 (amended): `setCurrentTime(t)` stores `t` as the position unclamped
(even when `t` exceeds the known duration), and changes no other field — in
particular the playing flag is untouched. -/
theorem setCurrentTime_stores_unclamped (st : AppState) (val : Rat) :
    (setCurrentTime st val).progress = val ∧
    (setCurrentTime st val).playing = st.playing ∧
    (setCurrentTime st val).duration = st.duration ∧
    (setCurrentTime st val).tracks = st.tracks ∧
    (setCurrentTime st val).library = st.library ∧
    (setCurrentTime st val).index = st.index ∧
    (setCurrentTime st val).shuffle = st.shuffle ∧
    (setCurrentTime st val).repeatMode = st.repeatMode ∧
    (setCurrentTime st val).volume = st.volume ∧
    (setCurrentTime st val).muted = st.muted := by
  exact ⟨rfl, rfl, rfl, rfl, rfl, rfl, rfl, rfl, rfl, rfl⟩

/-- C7 counterexample: on the error callback `readTags` resolves with artist
equal to the empty string, not `"Unknown Artist"` (that substitution happens
only in the success path and later in the UI, which treats `""` as falsy). -/
theorem readTags_failure_artist_counterexample :
    (readTags ⟨"track01.mp3"⟩ TagReadOutcome.onError).artist ≠ "Unknown Artist" := by
  decide

/-- C7 (amended): for every input file, both failure paths (the `onError`
callback and a thrown exception) resolve — `readTags` is total over the read
outcome, never rejecting — with title equal to the file name, artist equal to
the empty string (rendered as "Unknown Artist" only by the UI fallback), empty
album, and no cover art. -/
theorem readTags_failure_fallback (f : File) :
    readTags f TagReadOutcome.onError =
      { title := f.name, artist := "", album := "", pictureUrl := none } ∧
    readTags f TagReadOutcome.thrown =
      { title := f.name, artist := "", album := "", pictureUrl := none } :=
  ⟨rfl, rfl⟩

/-- C8 counterexample: a library element serialized by `GET /api/library` has
a `path` field and no `relativePath` field, so its fields are not exactly
`{id, name, relativePath}`. -/
theorem apiLibrary_fields_counterexample :
    "relativePath" ∉
      (serverTrackJson ⟨"id0", "a.mp3", "/music/a.mp3", "a.mp3"⟩).map Prod.fst ∧
    "path" ∈
      (serverTrackJson ⟨"id0", "a.mp3", "/music/a.mp3", "a.mp3"⟩).map Prod.fst := by
  decide

/-- C8 (amended): every element of the `GET /api/library` response is an
object with exactly the fields `{id, name, path, relPath}` (the relative path
is named `relPath`, and the absolute `path` is included as well). -/
theorem apiLibrary_fields (ts : List ServerTrack) (o : List (String × String))
    (ho : o ∈ apiLibraryResponse ts) :
    o.map Prod.fst = ["id", "name", "path", "relPath"] := by
  rcases List.mem_map.mp ho with ⟨t, _, rfl⟩
  rfl

/-- C8 witness: the amended statement at a one-track library. -/
theorem apiLibrary_fields_witness :
    (serverTrackJson ⟨"id0", "a.mp3", "/music/a.mp3", "a.mp3"⟩).map Prod.fst =
      ["id", "name", "path", "relPath"] :=
  apiLibrary_fields [⟨"id0", "a.mp3", "/music/a.mp3", "a.mp3"⟩] _
    (by simp [apiLibraryResponse])

/-- C10: both implementations of `clearAll` reset the track list to empty, the
index to `0`, playing to `false`, and position and duration to `0`, while
leaving shuffle, repeat mode, volume and muted untouched. -/
theorem clearAll_resets_and_frames (st : AppState) (stL : LocalPlayerState) :
    (clearAll st).tracks = [] ∧ (clearAll st).index = 0 ∧
    (clearAll st).playing = false ∧ (clearAll st).progress = 0 ∧
    (clearAll st).duration = 0 ∧ (clearAll st).shuffle = st.shuffle ∧
    (clearAll st).repeatMode = st.repeatMode ∧
    (clearAll st).volume = st.volume ∧ (clearAll st).muted = st.muted ∧
    (clearAllLocal stL).tracks = [] ∧ (clearAllLocal stL).index = 0 ∧
    (clearAllLocal stL).playing = false ∧ (clearAllLocal stL).progress = 0 ∧
    (clearAllLocal stL).duration = 0 ∧ (clearAllLocal stL).shuffle = stL.shuffle ∧
    (clearAllLocal stL).repeatMode = stL.repeatMode ∧
    (clearAllLocal stL).volume = stL.volume ∧
    (clearAllLocal stL).muted = stL.muted := by
  exact ⟨rfl, rfl, rfl, rfl, rfl, rfl, rfl, rfl, rfl, rfl, rfl, rfl, rfl, rfl,
    rfl, rfl, rfl, rfl⟩

/-- Filtering out an id that occurs nowhere in the list leaves it
unchanged. -/
theorem filter_id_eq_self {l : List Track} {id : String}
    (h : id ∉ l.map Track.id) : l.filter (fun t => t.id != id) = l := by
  induction l with
  | nil => rfl
  | cons t' ls ih =>
    simp only [List.map_cons, List.mem_cons, not_or] at h
    have hne : (t'.id != id) = true := by
      simp only [bne_iff_ne, ne_eq]
      exact fun hh => h.1 hh.symm
    simp [List.filter_cons, hne, ih h.2]

/-- Under unique ids, filtering out a present id removes exactly one
element. -/
theorem filter_id_length {l : List Track} {id : String}
    (hnd : (l.map Track.id).Nodup) (hmem : ∃ t ∈ l, t.id = id) :
    (l.filter (fun t => t.id != id)).length + 1 = l.length := by
  induction l with
  | nil => simp at hmem
  | cons t' ls ih =>
    simp only [List.map_cons, List.nodup_cons] at hnd
    rcases hmem with ⟨t, htmem, htid⟩
    rcases List.mem_cons.mp htmem with rfl | hts
    · have hid : id ∉ ls.map Track.id := htid ▸ hnd.1
      have hfalse : (t.id != id) = false := by simp [htid]
      simp [List.filter_cons, hfalse, filter_id_eq_self hid]
    · have ht'id : t'.id ≠ id := by
        intro he
        exact hnd.1 (he.symm ▸ htid ▸ List.mem_map_of_mem Track.id hts)
      have htrue : (t'.id != id) = true := by simp [ht'id]
      rw [List.filter_cons, if_pos htrue, List.length_cons, List.length_cons,
        ih hnd.2 ⟨t, hts, htid⟩]

/-- `findIndex` of a present id is nonnegative. -/
theorem findIndexJS_nonneg {l : List Track} {id : String}
    (hmem : ∃ t ∈ l, t.id = id) : 0 ≤ findIndexJS l id := by
  rw [findIndexJS]
  cases hfind : l.findIdx? (fun t => t.id == id) with
  | some n => simp
  | none =>
    rcases hmem with ⟨t, htmem, htid⟩
    have := List.findIdx?_eq_none_iff.mp hfind t htmem
    simp [htid] at this

/-- The `removeTrack` of
`modern_react_music_player_drag_drop_local_files.jsx` realizes the specified
behavior: under unique ids with the removed id present, exactly one track is
removed; removing the current track moves the index to
`min(removedIndex, newCount - 1)` floored at `0` and stops playback; removing
an earlier track decrements the index; removing a later track changes
nothing else. -/
theorem removeTrackLocal_behavior (st : LocalPlayerState) (id : String)
    (hnd : (st.tracks.map Track.id).Nodup)
    (hmem : ∃ t ∈ st.tracks, t.id = id) :
    ((removeTrackLocal st id).tracks.length : Int) + 1 = st.tracks.length ∧
    (findIndexJS st.tracks id = st.index →
      (removeTrackLocal st id).index =
        max 0 (min st.index ((st.tracks.length : Int) - 2)) ∧
      (removeTrackLocal st id).playing = false) ∧
    (findIndexJS st.tracks id < st.index →
      (removeTrackLocal st id).index = st.index - 1 ∧
      (removeTrackLocal st id).playing = st.playing) ∧
    (st.index < findIndexJS st.tracks id →
      (removeTrackLocal st id).index = st.index ∧
      (removeTrackLocal st id).playing = st.playing) := by
  have hge := findIndexJS_nonneg hmem
  have hlen := filter_id_length hnd hmem
  by_cases h1 : findIndexJS st.tracks id = st.index
  · simp only [removeTrackLocal, if_pos h1]
    refine ⟨by push_cast [← hlen]; ring, fun _ => ⟨?_, by trivial⟩,
      fun hlt => by omega, fun hgt => by omega⟩
    rw [h1]
    have hcast : ((st.tracks.filter (fun t => t.id != id)).length : Int) =
        (st.tracks.length : Int) - 1 := by push_cast [← hlen]; ring
    rw [hcast]
    ring_nf
  · by_cases h2 : findIndexJS st.tracks id < st.index
    · simp only [removeTrackLocal, if_neg h1, if_pos h2]
      refine ⟨by push_cast [← hlen]; ring, fun heq => absurd heq h1,
        fun _ => ⟨?_, by trivial⟩, fun hgt => by omega⟩
      rw [max_eq_right (by omega : (0 : Int) ≤ st.index - 1)]
    · simp only [removeTrackLocal, if_neg h1, if_neg h2]
      exact ⟨by push_cast [← hlen]; ring, fun heq => absurd heq h1,
        fun hlt => absurd hlt h2, fun _ => by constructor <;> trivial⟩

/-- C4: at the failing input — two tracks, the current one being the last
(`index == 1`), playing — `removeTrack` of `src/App.jsx` only filters the
list: the index stays `1`, now out of range of the one remaining track, and
`playing` stays `true`; the `removeTrack` of
`modern_react_music_player_drag_drop_local_files.jsx` at the very same input
moves the index to `0` and stops playback as the claim states. -/
theorem removeTrack_last_current_divergence :
    (removeTrack ⟨[⟨"a", "Song A"⟩, ⟨"b", "Song B"⟩], Library.empty, 1, true,
        false, RepeatMode.off, 9/10, false, 0, 0, "#0a0f29"⟩ "b").tracks.length
      = 1 ∧
    (removeTrack ⟨[⟨"a", "Song A"⟩, ⟨"b", "Song B"⟩], Library.empty, 1, true,
        false, RepeatMode.off, 9/10, false, 0, 0, "#0a0f29"⟩ "b").index = 1 ∧
    (removeTrack ⟨[⟨"a", "Song A"⟩, ⟨"b", "Song B"⟩], Library.empty, 1, true,
        false, RepeatMode.off, 9/10, false, 0, 0, "#0a0f29"⟩ "b").playing
      = true ∧
    (removeTrackLocal ⟨[⟨"a", "Song A"⟩, ⟨"b", "Song B"⟩], 1, true, false,
        RepeatMode.off, 9/10, false, false, 0, 0⟩ "b").index = 0 ∧
    (removeTrackLocal ⟨[⟨"a", "Song A"⟩, ⟨"b", "Song B"⟩], 1, true, false,
        RepeatMode.off, 9/10, false, false, 0, 0⟩ "b").playing = false := by
  decide

end VaporPlayer
